import Mathlib

/-!
Verification of the route-optimisation data-preparation pipeline.

The Python sources embedded here:
  * `src/data_prep/osm_distance_matrix.py`  — `build_osrm_distance_matrix`
  * `src/data_prep/prepare_global_data.py`  — `get_osrm_matrix_chunked`,
    `normalize_name`, the customer-admission filter (STEP 2) and the
    fleet-assignment loop (STEP 4)
  * `src/data_prep/split_by_depot.py`       — `is_valid_coordinate` and the
    per-dispatch group pipeline of `process_and_split`
  * `src/vrp_ortools/check_feasibility.py`  — `check_feasibility`

Modelling conventions.  An N×N integer array initialised to zero is modelled
as a total function `Nat → Nat → Int` (`Mat`), with the Python statement
`matrix[i][j] = v` becoming the pointwise update `updMat`.  The external
distance service is modelled as a deterministic response oracle: for each
ordered chunk pair `(ci, cj)` it either fails (`none`, covering a non-200
status, a missing `distances` payload, and a request exception — each of
which aborts the Python build) or returns a table of optional distances
keyed by the original global indices, `none` standing for a JSON null entry.
Python floats that hold exact integer/ratio data are modelled as `Int`/`Rat`.
-/

/-- An N×N integer matrix, modelled as a total function on indices; cells
outside the N×N range are irrelevant and stay at the initial value 0. -/
def Mat : Type := Nat → Nat → Int

/-- The Python assignment `matrix[i][j] = v`. -/
def updMat (m : Mat) (i j : Nat) (v : Int) : Mat :=
  fun a b => if a = i ∧ b = j then v else m a b

/-- A response oracle for the distance service: for chunk pair `(ci, cj)`
either a failure (`none`) or a table of optional distances keyed by global
indices. -/
def RespOracle : Type := Nat → Nat → Option (Nat → Nat → Option Int)

/-- `MAX_POINTS = 80` from `osm_distance_matrix.py`. -/
def MAX_POINTS : Nat := 80

/-- `CHUNK_SIZE = 50` from `prepare_global_data.py`. -/
def CHUNK_SIZE : Nat := 50

/-- The sentinel distance used by `get_osrm_matrix_chunked` for null
entries. -/
def SENTINEL : Int := 999999

/-- `chunks = [list(range(i, min(i + C, n))) for i in range(0, n, C)]`:
the starts `0, C, 2C, …` below `n` are `List.range' 0 ⌈n/C⌉ C`, and the
chunk at start `i` is the interval `[i, min (i+C) n)`. -/
def pyChunks (n C : Nat) : List (List Nat) :=
  (List.range' 0 ((n + C - 1) / C) C).map
    (fun i => List.range' i (min (i + C) n - i))

/-- The inner fill loops shared by both builders:
`for r, si in enumerate(src): for c, dj in enumerate(dst):
matrix[si][dj] = e(si, dj)`, where `e` is the already-converted entry for a
global cell. -/
def fillPair (e : Nat → Nat → Int) (m : Mat) (src dst : List Nat) : Mat :=
  src.foldl (fun m si => dst.foldl (fun m dj => updMat m si dj (e si dj)) m) m

/-- Entry conversion in `get_osrm_matrix_chunked`:
`int(dist_val) if dist_val is not None else 999999`. -/
def convSentinel (o : Option Int) : Int :=
  match o with
  | some v => v
  | none => SENTINEL

/-- Entry conversion in `build_osrm_distance_matrix`:
`int(d) if d else 0` — both a null and a zero are falsy and become 0. -/
def pyIntOr0 (o : Option Int) : Int :=
  match o with
  | some v => if v = 0 then 0 else v
  | none => 0

/-- `get_osrm_matrix_chunked` from `prepare_global_data.py`, parameterised
by the chunk size `C` (the module constant `CHUNK_SIZE`) and the response
oracle.  The Python function returns `None` from inside the loop as soon as
a request fails; folding in the `Option` monad (a `none` accumulator
absorbs all later steps) yields the same result. -/
def get_osrm_matrix_chunked (R : RespOracle) (n C : Nat) : Option Mat :=
  let cs := pyChunks n C
  cs.enum.foldl
    (fun acc p =>
      cs.enum.foldl
        (fun acc q =>
          acc.bind (fun m =>
            (R p.1 q.1).map (fun T =>
              fillPair (fun a b => convSentinel (T a b)) m p.2 q.2)))
        acc)
    (some (fun _ _ => 0))

/-- `build_osrm_distance_matrix` from `osm_distance_matrix.py`,
parameterised by the chunk size `C` (the module constant `MAX_POINTS`) and
the response oracle.  A failing request raises `RuntimeError` in Python;
here it yields `Except.error`.  The `n = 0` and `n = 1` special cases
return the empty and the `[[0]]` matrix, both the constant-zero `Mat`. -/
def build_osrm_distance_matrix (R : RespOracle) (n C : Nat) :
    Except String Mat :=
  if n = 0 then .ok (fun _ _ => 0)
  else if n = 1 then .ok (fun _ _ => 0)
  else
    let cs := pyChunks n C
    cs.enum.foldl
      (fun acc p =>
        cs.enum.foldl
          (fun acc q =>
            acc.bind (fun m =>
              match R p.1 q.1 with
              | none => .error "OSRM failed"
              | some T =>
                  .ok (fillPair (fun a b => pyIntOr0 (T a b)) m p.2 q.2)))
          acc)
      (.ok (fun _ _ => 0))

/-- A single unchunked rectangular query over all of `[0, n)`, filled into
the zero matrix with the sentinel conversion of
`get_osrm_matrix_chunked`. -/
def unchunked_osrm_matrix (T : Nat → Nat → Option Int) (n : Nat) : Mat :=
  fillPair (fun a b => convSentinel (T a b)) (fun _ _ => 0)
    (List.range n) (List.range n)

/-! ### Generic lemmas about the fill folds -/

theorem updMat_apply (m : Mat) (i j : Nat) (v : Int) (a b : Nat) :
    updMat m i j v a b = if a = i ∧ b = j then v else m a b := rfl

theorem foldl_upd_row (e : Nat → Nat → Int) (si : Nat) (dst : List Nat)
    (m : Mat) (a b : Nat) :
    (dst.foldl (fun m dj => updMat m si dj (e si dj)) m) a b =
      if a = si ∧ b ∈ dst then e a b else m a b := by
  induction dst generalizing m with
  | nil => simp
  | cons d ds ih =>
    rw [List.foldl_cons, ih]
    by_cases ha : a = si
    · subst ha
      by_cases hbd : b = d
      · subst hbd
        by_cases hds : b ∈ ds <;> simp [updMat, hds]
      · simp [updMat, hbd, List.mem_cons]
    · simp [updMat, ha]

theorem fillPair_apply (e : Nat → Nat → Int) (m : Mat) (src dst : List Nat)
    (a b : Nat) :
    fillPair e m src dst a b =
      if a ∈ src ∧ b ∈ dst then e a b else m a b := by
  induction src generalizing m with
  | nil => simp [fillPair]
  | cons s ss ih =>
    show (ss.foldl _ (dst.foldl (fun m dj => updMat m s dj (e s dj)) m)) a b = _
    rw [show (ss.foldl (fun m si => dst.foldl (fun m dj => updMat m si dj (e si dj)) m)
          (dst.foldl (fun m dj => updMat m s dj (e s dj)) m)) =
        fillPair e (dst.foldl (fun m dj => updMat m s dj (e s dj)) m) ss dst from rfl]
    rw [ih, foldl_upd_row]
    by_cases hs : a ∈ ss
    · by_cases hb : b ∈ dst <;> simp [hs, hb, List.mem_cons]
    · by_cases has : a = s
      · subst has
        by_cases hb : b ∈ dst <;> simp [hs, hb, List.mem_cons]
      · simp [hs, has, List.mem_cons]

theorem foldl_fill_dsts (e : Nat → Nat → Int) (src : List Nat)
    (cs : List (List Nat)) (m : Mat) (a b : Nat) :
    (cs.foldl (fun m dst => fillPair e m src dst) m) a b =
      if a ∈ src ∧ (∃ c ∈ cs, b ∈ c) then e a b else m a b := by
  induction cs generalizing m with
  | nil => simp
  | cons c cs' ih =>
    rw [List.foldl_cons, ih, fillPair_apply]
    by_cases hsrc : a ∈ src
    · by_cases hc : b ∈ c
      · by_cases hcs : ∃ d ∈ cs', b ∈ d <;> simp [hsrc, hc, hcs]
      · by_cases hcs : ∃ d ∈ cs', b ∈ d <;> simp [hsrc, hc, hcs]
    · simp [hsrc]

theorem foldl_fill_all (e : Nat → Nat → Int) (cs csd : List (List Nat))
    (m : Mat) (a b : Nat) :
    (cs.foldl (fun m src => csd.foldl (fun m dst => fillPair e m src dst) m) m)
        a b =
      if (∃ c ∈ cs, a ∈ c) ∧ (∃ c ∈ csd, b ∈ c) then e a b else m a b := by
  induction cs generalizing m with
  | nil => simp
  | cons c cs' ih =>
    rw [List.foldl_cons, ih, foldl_fill_dsts]
    by_cases hd : ∃ d ∈ csd, b ∈ d
    · by_cases hc : a ∈ c
      · by_cases hcs : ∃ d ∈ cs', a ∈ d <;> simp [hd, hc, hcs]
      · by_cases hcs : ∃ d ∈ cs', a ∈ d <;> simp [hd, hc, hcs]
    · simp [hd]

/-- Folding an `Option`-valued step that always succeeds from a `some`
accumulator produces `some` of the plain fold. -/
theorem foldl_some_of_step {α β : Type} (S : Option β → α → Option β)
    (F : β → α → β) (hS : ∀ m p, S (some m) p = some (F m p))
    (l : List α) (m : β) : l.foldl S (some m) = some (l.foldl F m) := by
  induction l generalizing m with
  | nil => rfl
  | cons x xs ih => rw [List.foldl_cons, hS, List.foldl_cons, ih]

/-- `Except` version of `foldl_some_of_step`. -/
theorem foldl_ok_of_step {ε α β : Type} (S : Except ε β → α → Except ε β)
    (F : β → α → β) (hS : ∀ m p, S (.ok m) p = .ok (F m p))
    (l : List α) (m : β) : l.foldl S (.ok m) = .ok (l.foldl F m) := by
  induction l generalizing m with
  | nil => rfl
  | cons x xs ih => rw [List.foldl_cons, hS, List.foldl_cons, ih]

theorem enumFrom_foldl_snd {α β : Type} (g : β → α → β) (k : Nat)
    (l : List α) (m : β) :
    (List.enumFrom k l).foldl (fun acc p => g acc p.2) m = l.foldl g m := by
  induction l generalizing k m with
  | nil => rfl
  | cons x xs ih => simp only [List.enumFrom, List.foldl_cons]; exact ih _ _

theorem enum_double_foldl {β : Type} (g : β → List Nat → List Nat → β)
    (cs : List (List Nat)) (z : β) :
    cs.enum.foldl (fun m p => cs.enum.foldl (fun m q => g m p.2 q.2) m) z =
      cs.foldl (fun m src => cs.foldl (fun m dst => g m src dst) m) z := by
  have h1 : cs.enum.foldl (fun m p => cs.enum.foldl (fun m q => g m p.2 q.2) m) z =
      cs.enum.foldl (fun m p => cs.foldl (fun m dst => g m p.2 dst) m) z := by
    apply List.foldl_ext
    intro m p _
    exact enumFrom_foldl_snd _ 0 cs m
  rw [h1]
  exact enumFrom_foldl_snd
    (fun m src => cs.foldl (fun m dst => g m src dst) m) 0 cs z

/-! ### The chunk partition covers exactly `[0, n)` -/

theorem mem_of_mem_pyChunks {n C k : Nat} {c : List Nat}
    (hc : c ∈ pyChunks n C) (hk : k ∈ c) : k < n := by
  rcases List.mem_map.1 hc with ⟨i, _, rfl⟩
  rcases List.mem_range'_1.1 hk with ⟨h1, h2⟩
  by_cases hin : i ≤ min (i + C) n
  · have := Nat.add_sub_cancel' hin
    omega
  · omega

theorem exists_pyChunks_mem {n C k : Nat} (hC : 0 < C) (hk : k < n) :
    ∃ c ∈ pyChunks n C, k ∈ c := by
  refine ⟨List.range' (C * (k / C)) (min (C * (k / C) + C) n - C * (k / C)),
    List.mem_map.2 ⟨C * (k / C), ?_, rfl⟩, ?_⟩
  · refine List.mem_range'.2 ⟨k / C, ?_, by ring⟩
    have hn1 : n + C - 1 = (n - 1) + C := by omega
    rw [hn1, Nat.add_div_right _ hC]
    have : k / C ≤ (n - 1) / C := Nat.div_le_div_right (by omega)
    omega
  · have hle : C * (k / C) ≤ k := Nat.mul_div_le k C
    have hmod : C * (k / C) + k % C = k := Nat.div_add_mod k C
    have hmlt : k % C < C := Nat.mod_lt _ hC
    have hkin : k < C * (k / C) + C := by omega
    have hmin : C * (k / C) ≤ min (C * (k / C) + C) n := by omega
    refine List.mem_range'_1.2 ⟨hle, ?_⟩
    rw [Nat.add_sub_cancel' hmin]
    omega

theorem exists_pyChunks_iff {n C : Nat} (hC : 0 < C) (k : Nat) :
    (∃ c ∈ pyChunks n C, k ∈ c) ↔ k < n :=
  ⟨fun ⟨_, hc, hk⟩ => mem_of_mem_pyChunks hc hk,
   fun hk => exists_pyChunks_mem hC hk⟩

/-! ### Characterisation of the builders on an all-success oracle -/

theorem chunked_success_foldl (T : Nat → Nat → Option Int) (n C : Nat) :
    get_osrm_matrix_chunked (fun _ _ => some T) n C =
      some ((pyChunks n C).foldl
        (fun m src => (pyChunks n C).foldl
          (fun m dst => fillPair (fun a b => convSentinel (T a b)) m src dst) m)
        (fun _ _ => 0)) := by
  unfold get_osrm_matrix_chunked
  have houter := foldl_some_of_step
    (fun acc p => (pyChunks n C).enum.foldl
      (fun acc q =>
        acc.bind (fun m =>
          ((fun _ _ => some T : RespOracle) p.1 q.1).map (fun T' =>
            fillPair (fun a b => convSentinel (T' a b)) m p.2 q.2)))
      acc)
    (fun m p => (pyChunks n C).enum.foldl
      (fun m q => fillPair (fun a b => convSentinel (T a b)) m p.2 q.2) m)
    (fun m p => foldl_some_of_step _
      (fun m q => fillPair (fun a b => convSentinel (T a b)) m p.2 q.2)
      (fun m q => rfl) (pyChunks n C).enum m)
    (pyChunks n C).enum (fun _ _ => 0)
  rw [houter]
  rw [enum_double_foldl
    (fun m src dst => fillPair (fun a b => convSentinel (T a b)) m src dst)
    (pyChunks n C) (fun _ _ => 0)]

theorem chunked_success_apply (T : Nat → Nat → Option Int) (n C : Nat)
    (hC : 0 < C) :
    get_osrm_matrix_chunked (fun _ _ => some T) n C =
      some (fun a b =>
        if a < n ∧ b < n then convSentinel (T a b) else 0) := by
  rw [chunked_success_foldl]
  congr 1
  funext a b
  rw [foldl_fill_all]
  rw [if_congr (iff_of_eq (by rw [exists_pyChunks_iff hC a,
    exists_pyChunks_iff hC b])) rfl rfl]

theorem build_success_foldl (T : Nat → Nat → Option Int) (n C : Nat)
    (hn : 2 ≤ n) :
    build_osrm_distance_matrix (fun _ _ => some T) n C =
      .ok ((pyChunks n C).foldl
        (fun m src => (pyChunks n C).foldl
          (fun m dst => fillPair (fun a b => pyIntOr0 (T a b)) m src dst) m)
        (fun _ _ => 0)) := by
  unfold build_osrm_distance_matrix
  rw [if_neg (by omega), if_neg (by omega)]
  have houter := foldl_ok_of_step
    (fun acc p => (pyChunks n C).enum.foldl
      (fun acc q =>
        acc.bind (fun m =>
          match ((fun _ _ => some T : RespOracle)) p.1 q.1 with
          | none => .error "OSRM failed"
          | some T' =>
              .ok (fillPair (fun a b => pyIntOr0 (T' a b)) m p.2 q.2)))
      acc)
    (fun m p => (pyChunks n C).enum.foldl
      (fun m q => fillPair (fun a b => pyIntOr0 (T a b)) m p.2 q.2) m)
    (fun m p => foldl_ok_of_step _
      (fun m q => fillPair (fun a b => pyIntOr0 (T a b)) m p.2 q.2)
      (fun m q => rfl) (pyChunks n C).enum m)
    (pyChunks n C).enum (fun _ _ => 0)
  rw [houter]
  rw [enum_double_foldl
    (fun m src dst => fillPair (fun a b => pyIntOr0 (T a b)) m src dst)
    (pyChunks n C) (fun _ _ => 0)]

theorem build_success_apply (T : Nat → Nat → Option Int) (n C : Nat)
    (hC : 0 < C) (hn : 2 ≤ n) :
    build_osrm_distance_matrix (fun _ _ => some T) n C =
      .ok (fun a b => if a < n ∧ b < n then pyIntOr0 (T a b) else 0) := by
  rw [build_success_foldl T n C hn]
  congr 1
  funext a b
  rw [foldl_fill_all]
  rw [if_congr (iff_of_eq (by rw [exists_pyChunks_iff hC a,
    exists_pyChunks_iff hC b])) rfl rfl]

/-! ### Abort characterisation: a build succeeds iff every request does -/

theorem foldl_isSome_iff {α β : Type} (S : Option β → α → Option β)
    (Q : α → Prop) (hS : ∀ acc p, (S acc p).isSome ↔ acc.isSome ∧ Q p)
    (l : List α) (acc : Option β) :
    (l.foldl S acc).isSome ↔ acc.isSome ∧ ∀ p ∈ l, Q p := by
  induction l generalizing acc with
  | nil => simp
  | cons x xs ih =>
    rw [List.foldl_cons, ih, hS]
    simp only [List.forall_mem_cons]
    tauto

theorem forall_mem_enum_fst {α : Type} (l : List α) (P : Nat → Prop) :
    (∀ p ∈ l.enum, P p.1) ↔ ∀ i < l.length, P i := by
  constructor
  · intro h i hi
    have hmem : i ∈ l.enum.map Prod.fst := by
      rw [List.enum_map_fst]
      exact List.mem_range.2 hi
    rcases List.mem_map.1 hmem with ⟨p, hp, rfl⟩
    exact h p hp
  · intro h p hp
    exact h p.1 (List.mem_enum hp).1

theorem chunked_isSome_iff (R : RespOracle) (n C : Nat) :
    (get_osrm_matrix_chunked R n C).isSome ↔
      ∀ ci < (pyChunks n C).length, ∀ cj < (pyChunks n C).length,
        (R ci cj).isSome := by
  unfold get_osrm_matrix_chunked
  have hinner : ∀ (p : Nat × List Nat) (acc : Option Mat),
      ((pyChunks n C).enum.foldl
        (fun acc q =>
          acc.bind (fun m =>
            (R p.1 q.1).map (fun T =>
              fillPair (fun a b => convSentinel (T a b)) m p.2 q.2)))
        acc).isSome ↔
        acc.isSome ∧ ∀ q ∈ (pyChunks n C).enum, (R p.1 q.1).isSome := by
    intro p acc
    refine foldl_isSome_iff _ _ (fun acc q => ?_) _ acc
    cases acc with
    | none => simp
    | some m => cases h : R p.1 q.1 <;> simp [h]
  rw [foldl_isSome_iff _
    (fun p => ∀ q ∈ (pyChunks n C).enum, (R p.1 q.1).isSome)
    (fun acc p => hinner p acc) (pyChunks n C).enum (some _)]
  rw [forall_mem_enum_fst (pyChunks n C)
    (fun ci => ∀ q ∈ (pyChunks n C).enum, (R ci q.1).isSome)]
  simp only [Option.isSome_some, true_and]
  constructor
  · intro h ci hci
    rw [← forall_mem_enum_fst (pyChunks n C) (fun cj => (R ci cj).isSome)]
    exact h ci hci
  · intro h ci hci
    rw [forall_mem_enum_fst (pyChunks n C) (fun cj => (R ci cj).isSome)]
    exact h ci hci

theorem foldl_except_isSome_iff {α β : Type} {ε : Type}
    (S : Except ε β → α → Except ε β) (Q : α → Prop)
    (hS : ∀ acc p, (S acc p).toOption.isSome ↔ acc.toOption.isSome ∧ Q p)
    (l : List α) (acc : Except ε β) :
    (l.foldl S acc).toOption.isSome ↔ acc.toOption.isSome ∧ ∀ p ∈ l, Q p := by
  induction l generalizing acc with
  | nil => simp
  | cons x xs ih =>
    rw [List.foldl_cons, ih, hS]
    simp only [List.forall_mem_cons]
    tauto

theorem build_isOk_iff (R : RespOracle) (n C : Nat) (hn : 2 ≤ n) :
    (build_osrm_distance_matrix R n C).toOption.isSome ↔
      ∀ ci < (pyChunks n C).length, ∀ cj < (pyChunks n C).length,
        (R ci cj).isSome := by
  unfold build_osrm_distance_matrix
  rw [if_neg (by omega), if_neg (by omega)]
  have hinner : ∀ (p : Nat × List Nat) (acc : Except String Mat),
      ((pyChunks n C).enum.foldl
        (fun acc q =>
          acc.bind (fun m =>
            match R p.1 q.1 with
            | none => .error "OSRM failed"
            | some T =>
                .ok (fillPair (fun a b => pyIntOr0 (T a b)) m p.2 q.2)))
        acc).toOption.isSome ↔
        acc.toOption.isSome ∧ ∀ q ∈ (pyChunks n C).enum, (R p.1 q.1).isSome := by
    intro p acc
    refine foldl_except_isSome_iff _ _ (fun acc q => ?_) _ acc
    cases acc with
    | error e => simp [Except.toOption, Except.bind]
    | ok m =>
      cases h : R p.1 q.1 <;>
        simp [h, Except.toOption, Except.bind]
  rw [foldl_except_isSome_iff _
    (fun p => ∀ q ∈ (pyChunks n C).enum, (R p.1 q.1).isSome)
    (fun acc p => hinner p acc) (pyChunks n C).enum (.ok _)]
  rw [forall_mem_enum_fst (pyChunks n C)
    (fun ci => ∀ q ∈ (pyChunks n C).enum, (R ci q.1).isSome)]
  simp only [Except.toOption, Option.isSome_some, true_and]
  constructor
  · intro h ci hci
    rw [← forall_mem_enum_fst (pyChunks n C) (fun cj => (R ci cj).isSome)]
    exact h ci hci
  · intro h ci hci
    rw [forall_mem_enum_fst (pyChunks n C) (fun cj => (R ci cj).isSome)]
    exact h ci hci

/-! ### Claims about the distance-matrix builders -/

/-- Claim C1: for every coordinate list of length `n` and chunk size
`0 < C < n`, the matrix assembled by the chunked builder (one rectangular
query per ordered chunk pair, copied back via the original global indices)
equals the matrix of a single unchunked rectangular query over all of
`[0, n)`, given a deterministic distance source `T` keyed by
`(global_row, global_col)` on which every request succeeds. -/
theorem C1_chunked_equals_unchunked (n C : Nat) (T : Nat → Nat → Option Int)
    (hC : 0 < C) (hCn : C < n) :
    get_osrm_matrix_chunked (fun _ _ => some T) n C =
      some (unchunked_osrm_matrix T n) := by
  rw [chunked_success_apply T n C hC]
  congr 1
  funext a b
  simp only [unchunked_osrm_matrix]
  rw [fillPair_apply]
  simp [List.mem_range]

/-- A deterministic mock distance source keyed by the global cell. -/
def Tex : Nat → Nat → Option Int := fun a b => some (3 * a + b)

theorem C1_chunked_equals_unchunked_witness :
    0 < 2 ∧ 2 < 3 ∧
      get_osrm_matrix_chunked (fun _ _ => some Tex) 3 2 =
        some (unchunked_osrm_matrix Tex 3) :=
  ⟨by decide, by decide,
    C1_chunked_equals_unchunked 3 2 Tex (by decide) (by decide)⟩

/-- A response table whose only anomaly is a null entry at the
non-diagonal cell `(0, 1)`; every request carrying it succeeds. -/
def nullT : Nat → Nat → Option Int :=
  fun a b => if a = 0 ∧ b = 1 then none else some 7

/-- Claim C2 counterexample: with a null entry at cell `(0, 1)` and every
response successful, `build_osrm_distance_matrix` completes and writes `0`
into that cell — the failure neither aborts the build (fail-fast) nor
becomes the sentinel `999999` (sentinel-fill) — while
`get_osrm_matrix_chunked` writes the sentinel for the very same data: the
two policies are hard-coded, not selected by any switch, and a single
builder does not apply one policy to all failures. -/
theorem C2_counterexample :
    (build_osrm_distance_matrix (fun _ _ => some nullT) 2 MAX_POINTS).toOption.map
        (fun m => m 0 1) = some 0 ∧
    (get_osrm_matrix_chunked (fun _ _ => some nullT) 2 CHUNK_SIZE).map
        (fun m => m 0 1) = some SENTINEL ∧
    (0 : Int) ≠ SENTINEL :=
  ⟨by decide, by decide, by decide⟩

/-- Claim C2 (amended): neither builder takes a policy switch; each has a
fixed, mixed behaviour.  For every all-success oracle with a null entry at
an in-range cell, `get_osrm_matrix_chunked` continues and writes the
sentinel `999999` while `build_osrm_distance_matrix` continues and writes
`0`; and for an arbitrary response oracle, either build aborts iff some
issued chunk request fails (fail-fast applies to response failures only). -/
theorem C2_amended_policies (n C a b : Nat) (T : Nat → Nat → Option Int)
    (R : RespOracle) (hC : 0 < C) (ha : a < n) (hb : b < n)
    (hn : 2 ≤ n) (hT : T a b = none) :
    ((get_osrm_matrix_chunked (fun _ _ => some T) n C).map (fun m => m a b) =
        some SENTINEL) ∧
    ((build_osrm_distance_matrix (fun _ _ => some T) n C).toOption.map
        (fun m => m a b) = some 0) ∧
    ((get_osrm_matrix_chunked R n C).isSome ↔
      ∀ ci < (pyChunks n C).length, ∀ cj < (pyChunks n C).length,
        (R ci cj).isSome) ∧
    ((build_osrm_distance_matrix R n C).toOption.isSome ↔
      ∀ ci < (pyChunks n C).length, ∀ cj < (pyChunks n C).length,
        (R ci cj).isSome) := by
  refine ⟨?_, ?_, chunked_isSome_iff R n C, build_isOk_iff R n C hn⟩
  · rw [chunked_success_apply T n C hC]
    simp [ha, hb, hT, convSentinel]
  · rw [build_success_apply T n C hC hn]
    simp [Except.toOption, ha, hb, hT, pyIntOr0]

theorem C2_amended_policies_witness :
    ((get_osrm_matrix_chunked (fun _ _ => some nullT) 2 1).map
        (fun m => m 0 1) = some SENTINEL) ∧
    ((build_osrm_distance_matrix (fun _ _ => some nullT) 2 1).toOption.map
        (fun m => m 0 1) = some 0) ∧
    ((get_osrm_matrix_chunked (fun _ _ => some nullT) 2 1).isSome ↔
      ∀ ci < (pyChunks 2 1).length, ∀ cj < (pyChunks 2 1).length,
        ((fun _ _ => some nullT : RespOracle) ci cj).isSome) ∧
    ((build_osrm_distance_matrix (fun _ _ => some nullT) 2 1).toOption.isSome ↔
      ∀ ci < (pyChunks 2 1).length, ∀ cj < (pyChunks 2 1).length,
        ((fun _ _ => some nullT : RespOracle) ci cj).isSome) :=
  C2_amended_policies 2 1 0 1 nullT (fun _ _ => some nullT)
    (by decide) (by decide) (by decide) (by decide) (by decide)

/-- Claim C8 counterexample: `get_osrm_matrix_chunked` writes the fail-soft
sentinel `999999` into the non-diagonal cell `(0, 1)` for a returned null
entry, conflating a null service answer with the sentinel. -/
theorem C8_counterexample :
    nullT 0 1 = none ∧
    (get_osrm_matrix_chunked (fun _ _ => some nullT) 2 CHUNK_SIZE).map
        (fun m => m 0 1) = some SENTINEL :=
  ⟨by decide, by decide⟩

/-- Claim C8 (amended): a returned distance of exactly `0` is kept as `0`
by both builders (never turned into the sentinel), but a returned null is
conflated with the fail-soft sentinel `999999` by `get_osrm_matrix_chunked`
(whereas `build_osrm_distance_matrix` silently writes `0` for it). -/
theorem C8_zero_vs_null (n C a b : Nat) (T : Nat → Nat → Option Int)
    (hC : 0 < C) (ha : a < n) (hb : b < n) (hn : 2 ≤ n) :
    (T a b = some 0 →
      (get_osrm_matrix_chunked (fun _ _ => some T) n C).map
          (fun m => m a b) = some 0 ∧
      (build_osrm_distance_matrix (fun _ _ => some T) n C).toOption.map
          (fun m => m a b) = some 0) ∧
    (T a b = none →
      (get_osrm_matrix_chunked (fun _ _ => some T) n C).map
          (fun m => m a b) = some SENTINEL ∧
      (build_osrm_distance_matrix (fun _ _ => some T) n C).toOption.map
          (fun m => m a b) = some 0) := by
  constructor <;> intro hT <;>
    rw [chunked_success_apply T n C hC, build_success_apply T n C hC hn] <;>
    exact ⟨by simp [ha, hb, hT, convSentinel],
      by simp [Except.toOption, ha, hb, hT, pyIntOr0]⟩

theorem C8_zero_vs_null_witness :
    (nullT 0 1 = some 0 →
      (get_osrm_matrix_chunked (fun _ _ => some nullT) 2 1).map
          (fun m => m 0 1) = some 0 ∧
      (build_osrm_distance_matrix (fun _ _ => some nullT) 2 1).toOption.map
          (fun m => m 0 1) = some 0) ∧
    (nullT 0 1 = none →
      (get_osrm_matrix_chunked (fun _ _ => some nullT) 2 1).map
          (fun m => m 0 1) = some SENTINEL ∧
      (build_osrm_distance_matrix (fun _ _ => some nullT) 2 1).toOption.map
          (fun m => m 0 1) = some 0) :=
  C8_zero_vs_null 2 1 0 1 nullT (by decide) (by decide) (by decide) (by decide)

/-! ### `check_feasibility` from `src/vrp_ortools/check_feasibility.py` -/

/-- Python `str.strip()`: drop leading and trailing whitespace, modelled
over the character list (the core `String.trim` does not reduce in the
kernel). -/
def pyStrip (s : String) : String :=
  String.mk (((s.data.dropWhile Char.isWhitespace).reverse.dropWhile
    Char.isWhitespace).reverse)

/-- Python `str.upper()`, modelled over the character list. -/
def pyUpper (s : String) : String := String.mk (s.data.map Char.toUpper)

/-- `normalize_name` from `prepare_global_data.py`:
`str(name).strip().upper()`. -/
def normalize_name (s : String) : String := pyUpper (pyStrip s)

/-- The data loaded by `check_feasibility` from the problem JSON.  The 2D
`distance_matrix` array is modelled as a total function on indices; `names`
likewise. -/
structure ProblemData where
  dist : Nat → Nat → Int
  demands : List Int
  vehicle_capacities : List Int
  names : Nat → String

/-- `depot_indices = [i for i, d in enumerate(demands) if d == 0]`. -/
def depotIndices (demands : List Int) : List Nat :=
  (List.range demands.length).filter (fun i => decide (demands.getD i 0 = 0))

/-- `customer_indices = [i for i, d in enumerate(demands) if d > 0]`. -/
def customerIndices (demands : List Int) : List Nat :=
  (List.range demands.length).filter (fun i => decide (demands.getD i 0 > 0))

/-- `speed_mpm = (AVERAGE_SPEED_KMPH * 1000) / 60.0`. -/
def speed_m_per_min (kmph : Rat) : Rat := kmph * 1000 / 60

/-- `AVERAGE_SPEED_KMPH = 50.0` (module configuration constant). -/
def AVERAGE_SPEED_KMPH : Rat := 50

/-- `MAX_ROUTE_TIME_HOURS = 5.0` (module configuration constant). -/
def MAX_ROUTE_TIME_HOURS : Rat := 5

/-- Python `max(capacities)` — raises on an empty list, hence `Option`. -/
def maxFleetCap : List Int → Option Int
  | [] => none
  | c :: cs => some (cs.foldl max c)

/-- Python `min(xs)` over a possibly-empty list (`none` plays the role of
the initial `float('inf')`). -/
def listMin : List Int → Option Int
  | [] => none
  | x :: xs => some (xs.foldl min x)

/-- The inner loop over depots for customer `i`: starting from
`min_dist_to_depot = float('inf')` (modelled as `none`), keep the strictly
smaller round trip `matrix[d][i] + matrix[i][d]` together with
`nearest_depot_name = names[d]`. -/
def rtStep (M : Nat → Nat → Int) (names : Nat → String) (i : Nat)
    (acc : Option (Int × String)) (d : Nat) : Option (Int × String) :=
  let rt := M d i + M i d
  match acc with
  | none => some (rt, names d)
  | some (m, nm) => if rt < m then some (rt, names d) else some (m, nm)

def roundTripFold (M : Nat → Nat → Int) (names : Nat → String)
    (depots : List Nat) (i : Nat) : Option (Int × String) :=
  depots.foldl (rtStep M names i) none

/-- `True` iff the computed minimum round trip is strictly below the
sentinel; the `none` (infinity) case counts as not below, matching
`min_dist_to_depot >= 999999`. -/
def rtBelowSentinel (o : Option (Int × String)) : Bool :=
  match o with
  | none => false
  | some p => decide (p.1 < SENTINEL)

/-- Outcome of the time check for one customer. -/
inductive TimeOutcome where
  | unreachable
  | tooFar (nearest : String) (dist : Int) (mins : Rat)
  | pass
deriving DecidableEq

def TimeOutcome.isTooFar : TimeOutcome → Bool
  | .tooFar _ _ _ => true
  | _ => false

def TimeOutcome.isUnreachable : TimeOutcome → Bool
  | .unreachable => true
  | _ => false

/-- The body of the time-feasibility loop for customer `i`: if the minimum
round trip is `>= 999999` (or stayed at infinity) the customer is
unreachable and no driving-time computation happens; otherwise
`driving_time_mins = min_dist / speed_mpm` is compared strictly against
`max_time_mins = MAX_ROUTE_TIME_HOURS * 60`. -/
def timeCheckCustomer (M : Nat → Nat → Int) (names : Nat → String)
    (depots : List Nat) (speed maxh : Rat) (i : Nat) : TimeOutcome :=
  match roundTripFold M names depots i with
  | none => .unreachable
  | some (m, nm) =>
    if m ≥ SENTINEL then .unreachable
    else
      let mins := (m : Rat) / speed_m_per_min speed
      if mins > maxh * 60 then .tooFar nm m mins else .pass

/-- The diagnostics printed by `check_feasibility`, as index lists: which
customers fail the capacity check, which are unreachable, which exceed the
time budget, and the two printed counters. -/
structure FeasReport where
  capacityFlagged : List Nat
  impossible_load_count : Nat
  unreachableFlagged : List Nat
  timeFlagged : List Nat
  impossible_time_count : Nat
deriving DecidableEq

/-- `check_feasibility`, parameterised by the two configuration constants.
Python `max(capacities)` raises on an empty list, hence `none` there.
`impossible_time_count` is incremented both for unreachable and for
over-budget customers. -/
def check_feasibility (P : ProblemData) (speed maxh : Rat) :
    Option FeasReport :=
  match P.vehicle_capacities with
  | [] => none
  | c :: cs =>
    let maxCap := cs.foldl max c
    let depots := depotIndices P.demands
    let custs := customerIndices P.demands
    let capF := custs.filter (fun i => decide (P.demands.getD i 0 > maxCap))
    let unre := custs.filter (fun i =>
      (timeCheckCustomer P.dist P.names depots speed maxh i).isUnreachable)
    let timeF := custs.filter (fun i =>
      (timeCheckCustomer P.dist P.names depots speed maxh i).isTooFar)
    some
      { capacityFlagged := capF
        impossible_load_count := capF.length
        unreachableFlagged := unre
        timeFlagged := timeF
        impossible_time_count := unre.length + timeF.length }

/-- The STEP 2 customer-admission filter of `prepare_global_data.py`:
`if pd.isna(qty) or qty == 0: continue`,
`if pd.isna(row["latitude"]) or pd.isna(row["longitude"]): continue`,
`if normalize_name(name) in DEPOT_COORDINATES: continue`; otherwise the row
becomes a customer node. -/
def admitsCustomer (qty : Option Int) (lat lon : Option Rat)
    (name : String) (depotKeys : List String) : Bool :=
  match qty with
  | none => false
  | some q =>
    if q = 0 then false
    else
      match lat, lon with
      | some _, some _ => decide (normalize_name name ∉ depotKeys)
      | _, _ => false

/-! ### Lemmas about the feasibility analyzer -/

theorem mem_customerIndices {demands : List Int} {i : Nat} :
    i ∈ customerIndices demands ↔
      i < demands.length ∧ demands.getD i 0 > 0 := by
  simp [customerIndices, List.mem_filter, List.mem_range]

theorem mem_depotIndices {demands : List Int} {i : Nat} :
    i ∈ depotIndices demands ↔
      i < demands.length ∧ demands.getD i 0 = 0 := by
  simp [depotIndices, List.mem_filter, List.mem_range]

/-- Unpacks a successful `check_feasibility` run into its report fields. -/
theorem check_feasibility_some {P : ProblemData} {speed maxh : Rat}
    {rep : FeasReport} (h : check_feasibility P speed maxh = some rep) :
    ∃ c cs, P.vehicle_capacities = c :: cs ∧
      rep.capacityFlagged = (customerIndices P.demands).filter
        (fun i => decide (P.demands.getD i 0 > cs.foldl max c)) ∧
      rep.impossible_load_count = rep.capacityFlagged.length ∧
      rep.unreachableFlagged = (customerIndices P.demands).filter (fun i =>
        (timeCheckCustomer P.dist P.names (depotIndices P.demands)
          speed maxh i).isUnreachable) ∧
      rep.timeFlagged = (customerIndices P.demands).filter (fun i =>
        (timeCheckCustomer P.dist P.names (depotIndices P.demands)
          speed maxh i).isTooFar) ∧
      rep.impossible_time_count =
        rep.unreachableFlagged.length + rep.timeFlagged.length := by
  cases hcaps : P.vehicle_capacities with
  | nil =>
    unfold check_feasibility at h
    rw [hcaps] at h
    simp at h
  | cons c cs =>
    unfold check_feasibility at h
    rw [hcaps] at h
    simp only [Option.some.injEq] at h
    subst h
    exact ⟨c, cs, rfl, rfl, rfl, rfl, rfl, rfl⟩

theorem timeCheck_of_not_below {M : Nat → Nat → Int} {names : Nat → String}
    {depots : List Nat} {i : Nat}
    (h : rtBelowSentinel (roundTripFold M names depots i) = false)
    (speed maxh : Rat) :
    timeCheckCustomer M names depots speed maxh i = .unreachable := by
  unfold timeCheckCustomer
  cases hf : roundTripFold M names depots i with
  | none => rfl
  | some p =>
    obtain ⟨m, nm⟩ := p
    rw [hf] at h
    simp only [rtBelowSentinel, decide_eq_false_iff_not, not_lt] at h
    simp [h]

theorem timeCheck_of_below {M : Nat → Nat → Int} {names : Nat → String}
    {depots : List Nat} {i : Nat} {m : Int} {nm : String}
    (hf : roundTripFold M names depots i = some (m, nm))
    (hm : m < SENTINEL) (speed maxh : Rat) :
    timeCheckCustomer M names depots speed maxh i =
      if (m : Rat) / speed_m_per_min speed > maxh * 60
      then .tooFar nm m ((m : Rat) / speed_m_per_min speed)
      else .pass := by
  unfold timeCheckCustomer
  rw [hf]
  have h' : ¬ m ≥ SENTINEL := not_le.2 hm
  simp only [h', if_false]

theorem roundTripFold_aux (M : Nat → Nat → Int) (names : Nat → String)
    (i : Nat) (ds : List Nat) (v : Int) (nm : String) :
    ((ds.foldl (rtStep M names i) (some (v, nm))).map Prod.fst) =
      some (ds.foldl (fun w d => min w (M d i + M i d)) v) := by
  induction ds generalizing v nm with
  | nil => rfl
  | cons d ds ih =>
    rw [List.foldl_cons, List.foldl_cons]
    by_cases h : M d i + M i d < v
    · have hstep : rtStep M names i (some (v, nm)) d =
          some (M d i + M i d, names d) := by simp [rtStep, h]
      rw [hstep, ih, min_eq_right (le_of_lt h)]
    · have hstep : rtStep M names i (some (v, nm)) d = some (v, nm) := by
        simp [rtStep, h]
      rw [hstep, ih, min_eq_left (not_lt.1 h)]

/-- The fold over depots computes exactly
`min over depots d of (matrix[d][i] + matrix[i][d])`. -/
theorem roundTripFold_min (M : Nat → Nat → Int) (names : Nat → String)
    (depots : List Nat) (i : Nat) :
    (roundTripFold M names depots i).map Prod.fst =
      listMin (depots.map (fun d => M d i + M i d)) := by
  cases depots with
  | nil => rfl
  | cons d ds =>
    unfold roundTripFold
    rw [List.foldl_cons]
    have hstep : rtStep M names i none d = some (M d i + M i d, names d) := rfl
    rw [hstep, roundTripFold_aux]
    simp only [listMin, List.map_cons]
    rw [List.foldl_map]

/-! ### Claims about the feasibility analyzer -/

/-- The §8 capacity scenario: 2 depots A, B; 3 customers with demands
`[400, 600, 1200]`; fleets `A=[1000]`, `B=[1000]`. -/
def scenarioP : ProblemData :=
  { dist := fun a b => if a = b then 0 else 1000
    demands := [0, 0, 400, 600, 1200]
    vehicle_capacities := [1000, 1000]
    names := fun _ => "node" }

def emptyReport : FeasReport := ⟨[], 0, [], [], 0⟩

def scenarioRep : FeasReport :=
  (check_feasibility scenarioP AVERAGE_SPEED_KMPH MAX_ROUTE_TIME_HOURS).getD
    emptyReport

/-- Claim C6: the capacity check flags a customer iff its demand strictly
exceeds the maximum capacity across the entire fleet (`max(capacities)`),
and the reported count is the number of flagged customers; in the §8
scenario (demands `[400, 600, 1200]`, fleet `[1000, 1000]`) exactly the
1200-demand customer — node index 4 — is flagged. -/
theorem C6_capacity_check :
    (∀ (P : ProblemData) (speed maxh : Rat) (rep : FeasReport) (mc : Int),
      check_feasibility P speed maxh = some rep →
      maxFleetCap P.vehicle_capacities = some mc →
        ((∀ i, i ∈ rep.capacityFlagged ↔
            i ∈ customerIndices P.demands ∧ P.demands.getD i 0 > mc) ∧
          rep.impossible_load_count = rep.capacityFlagged.length)) ∧
    (check_feasibility scenarioP AVERAGE_SPEED_KMPH MAX_ROUTE_TIME_HOURS).map
        (fun r => r.capacityFlagged) = some [4] := by
  constructor
  · intro P speed maxh rep mc hrep hmc
    obtain ⟨c, cs, hcaps, hcap, hload, _, _, _⟩ := check_feasibility_some hrep
    rw [hcaps] at hmc
    simp only [maxFleetCap, Option.some.injEq] at hmc
    subst hmc
    refine ⟨fun i => ?_, hload⟩
    rw [hcap, List.mem_filter]
    simp
  · decide

theorem C6_capacity_check_witness :
    (4 ∈ scenarioRep.capacityFlagged ↔
        4 ∈ customerIndices scenarioP.demands ∧
          scenarioP.demands.getD 4 0 > 1000) ∧
      scenarioRep.impossible_load_count = scenarioRep.capacityFlagged.length :=
  ⟨(C6_capacity_check.1 scenarioP AVERAGE_SPEED_KMPH MAX_ROUTE_TIME_HOURS
      scenarioRep 1000 (by rfl) (by rfl)).1 4,
    (C6_capacity_check.1 scenarioP AVERAGE_SPEED_KMPH MAX_ROUTE_TIME_HOURS
      scenarioRep 1000 (by rfl) (by rfl)).2⟩

/-- Claim C4: for every customer whose minimum round-trip distance is below
the sentinel, the analyzer converts the distance to minutes via
`speed_m_per_min = avg_speed_kmph * 1000 / 60` and flags the customer iff
the driving minutes strictly exceed `max_route_time_hours * 60`; driving
time exactly at the limit is not flagged, one minute over is flagged. -/
theorem C4_time_budget_strict (P : ProblemData) (speed maxh : Rat)
    (rep : FeasReport) (i : Nat) (m : Int) (nm : String)
    (hrep : check_feasibility P speed maxh = some rep)
    (hc : i ∈ customerIndices P.demands)
    (hrt : roundTripFold P.dist P.names (depotIndices P.demands) i =
      some (m, nm))
    (hm : m < SENTINEL) :
    (i ∈ rep.timeFlagged ↔
      (m : Rat) / speed_m_per_min speed > maxh * 60) ∧
    ((m : Rat) / speed_m_per_min speed = maxh * 60 →
      i ∉ rep.timeFlagged) ∧
    ((m : Rat) / speed_m_per_min speed = maxh * 60 + 1 →
      i ∈ rep.timeFlagged) := by
  obtain ⟨c, cs, hcaps, hcap, hload, hunre, htf, hcount⟩ :=
    check_feasibility_some hrep
  have hiff : i ∈ rep.timeFlagged ↔
      (m : Rat) / speed_m_per_min speed > maxh * 60 := by
    rw [htf, List.mem_filter, timeCheck_of_below hrt hm speed maxh]
    constructor
    · rintro ⟨-, hfl⟩
      by_contra hgt
      rw [if_neg hgt] at hfl
      simp [TimeOutcome.isTooFar] at hfl
    · intro hgt
      refine ⟨hc, ?_⟩
      rw [if_pos hgt]
      rfl
  refine ⟨hiff, fun heq => ?_, fun heq => ?_⟩
  · rw [hiff, heq]
    exact lt_irrefl _
  · rw [hiff, heq]
    exact lt_add_one _

theorem C4_time_budget_strict_witness :
    2 ∈ scenarioRep.timeFlagged ↔
      ((2000 : Int) : Rat) / speed_m_per_min AVERAGE_SPEED_KMPH >
        MAX_ROUTE_TIME_HOURS * 60 :=
  (C4_time_budget_strict scenarioP AVERAGE_SPEED_KMPH MAX_ROUTE_TIME_HOURS
    scenarioRep 2 2000 "node" (by rfl) (by decide) (by decide) (by decide)).1

/-- Claim C5: a customer whose minimum round-trip distance over all depots
is at or above the sentinel 999999 (including the no-depot case, where the
minimum stays at infinity) is flagged as network-disconnected — recorded in
the `unreachableFlagged` report field, distinct from `capacityFlagged` —
and is not time-flagged; no driving-time comparison happens for it: the
same flag results under any other speed/time configuration.  The fold also
computes exactly `min over depots d of (matrix[d][i] + matrix[i][d])`. -/
theorem C5_sentinel_unreachable (P : ProblemData)
    (speed maxh speed' maxh' : Rat) (rep rep' : FeasReport) (i : Nat)
    (hrep : check_feasibility P speed maxh = some rep)
    (hrep' : check_feasibility P speed' maxh' = some rep')
    (hc : i ∈ customerIndices P.demands)
    (hsent : rtBelowSentinel
      (roundTripFold P.dist P.names (depotIndices P.demands) i) = false) :
    i ∈ rep.unreachableFlagged ∧ i ∉ rep.timeFlagged ∧
    i ∈ rep'.unreachableFlagged ∧
    (roundTripFold P.dist P.names (depotIndices P.demands) i).map Prod.fst =
      listMin ((depotIndices P.demands).map
        (fun d => P.dist d i + P.dist i d)) := by
  obtain ⟨c, cs, hcaps, _, _, hunre, htf, _⟩ := check_feasibility_some hrep
  obtain ⟨c', cs', hcaps', _, _, hunre', _, _⟩ := check_feasibility_some hrep'
  have hout := timeCheck_of_not_below hsent
  refine ⟨?_, ?_, ?_, roundTripFold_min _ _ _ _⟩
  · rw [hunre, List.mem_filter]
    exact ⟨hc, by rw [hout speed maxh]; rfl⟩
  · rw [htf, List.mem_filter]
    rintro ⟨-, hfl⟩
    rw [hout speed maxh] at hfl
    simp [TimeOutcome.isTooFar] at hfl
  · rw [hunre', List.mem_filter]
    exact ⟨hc, by rw [hout speed' maxh']; rfl⟩

/-- An instance whose single customer is disconnected: both directed legs
carry the sentinel distance. -/
def farP : ProblemData :=
  { dist := fun a b => if a = b then 0 else 999999
    demands := [0, 5]
    vehicle_capacities := [10]
    names := fun _ => "node" }

def farRep : FeasReport :=
  (check_feasibility farP AVERAGE_SPEED_KMPH MAX_ROUTE_TIME_HOURS).getD
    emptyReport

def farRep2 : FeasReport := (check_feasibility farP 10 1).getD emptyReport

theorem C5_sentinel_unreachable_witness :
    1 ∈ farRep.unreachableFlagged ∧ 1 ∉ farRep.timeFlagged ∧
    1 ∈ farRep2.unreachableFlagged ∧
    (roundTripFold farP.dist farP.names (depotIndices farP.demands) 1).map
        Prod.fst =
      listMin ((depotIndices farP.demands).map
        (fun d => farP.dist d 1 + farP.dist 1 d)) :=
  C5_sentinel_unreachable farP AVERAGE_SPEED_KMPH MAX_ROUTE_TIME_HOURS 10 1
    farRep farRep2 1 (by rfl) (by rfl) (by decide) (by decide)

/-- Claim C9: node kinds come solely from the demands array — depot iff
demand = 0, customer iff demand > 0 — so a node with negative demand (which
the STEP 2 customer-admission filter of `prepare_global_data.py` does not
reject: it only skips missing or exactly-zero quantities) is in neither
index list and is examined by neither the capacity check nor the time
check. -/
theorem C9_negative_demand (P : ProblemData) (speed maxh : Rat)
    (rep : FeasReport) (i : Nat) (q : Int) (la lo : Rat) (nm : String)
    (keys : List String)
    (hrep : check_feasibility P speed maxh = some rep)
    (hneg : P.demands.getD i 0 < 0)
    (hq : q < 0) (hnm : normalize_name nm ∉ keys) :
    i ∉ depotIndices P.demands ∧ i ∉ customerIndices P.demands ∧
    i ∉ rep.capacityFlagged ∧ i ∉ rep.unreachableFlagged ∧
    i ∉ rep.timeFlagged ∧
    admitsCustomer (some q) (some la) (some lo) nm keys = true := by
  obtain ⟨c, cs, hcaps, hcap, _, hunre, htf, _⟩ := check_feasibility_some hrep
  have hnotc : i ∉ customerIndices P.demands := by
    rw [mem_customerIndices]
    rintro ⟨-, hgt⟩
    omega
  have hnotd : i ∉ depotIndices P.demands := by
    rw [mem_depotIndices]
    rintro ⟨-, heq⟩
    omega
  refine ⟨hnotd, hnotc, ?_, ?_, ?_, ?_⟩
  · rw [hcap, List.mem_filter]
    rintro ⟨hin, -⟩
    exact hnotc hin
  · rw [hunre, List.mem_filter]
    rintro ⟨hin, -⟩
    exact hnotc hin
  · rw [htf, List.mem_filter]
    rintro ⟨hin, -⟩
    exact hnotc hin
  · show (if q = 0 then false
      else decide (normalize_name nm ∉ keys)) = true
    rw [if_neg (by omega)]
    simp [hnm]

/-- An instance carrying a negative-demand node at index 1. -/
def negP : ProblemData :=
  { dist := fun _ _ => 5
    demands := [0, -3, 7]
    vehicle_capacities := [10]
    names := fun _ => "node" }

def negRep : FeasReport :=
  (check_feasibility negP AVERAGE_SPEED_KMPH MAX_ROUTE_TIME_HOURS).getD
    emptyReport

theorem C9_negative_demand_witness :
    1 ∉ depotIndices negP.demands ∧ 1 ∉ customerIndices negP.demands ∧
    1 ∉ negRep.capacityFlagged ∧ 1 ∉ negRep.unreachableFlagged ∧
    1 ∉ negRep.timeFlagged ∧
    admitsCustomer (some (-3)) (some 1) (some 2) "Shed 7" ["BMC DAHID"] =
      true :=
  C9_negative_demand negP AVERAGE_SPEED_KMPH MAX_ROUTE_TIME_HOURS negRep 1
    (-3) 1 2 "Shed 7" ["BMC DAHID"] (by rfl) (by decide) (by decide)
    (by decide)

/-! ### Claim C3: label canonicalization -/

/-- Claim C3 counterexample: `normalize_name` only strips and upper-cases —
it does not sort the constituent words — so the spec's own example pair
maps to different canonical keys. -/
theorem C3_counterexample :
    normalize_name "Dahid Bmc" ≠ normalize_name "Bmc Dahid" := by decide

/-- Claim C3 (amended): canonicalization strips surrounding whitespace and
upper-cases the label (and is idempotent on these inputs), but it is not
word-order-insensitive: two labels containing the same words in a different
order map to different canonical keys. -/
theorem C3_trim_upper_no_sort :
    normalize_name "Dahid Bmc" = "DAHID BMC" ∧
    normalize_name " Bmc Dahid " = "BMC DAHID" ∧
    normalize_name "Dahid Bmc" ≠ normalize_name "Bmc Dahid" ∧
    normalize_name (normalize_name "Dahid Bmc") =
      normalize_name "Dahid Bmc" :=
  ⟨by decide, by decide, by decide, by decide⟩

/-! ### Claim C7: fleet assignment -/

/-- The `FLEET_CONFIG` dictionary of `prepare_global_data.py`, as an
insertion-ordered association list. -/
def FLEET_CONFIG : List (String × List Int) :=
  [("MCC Buldhana", [2000, 1000, 500, 500]),
   ("MCC Buttibori", [1000, 1000]),
   ("MCC Dhanoli", [1000, 500]),
   ("BMC Manapur", [1000, 1000]),
   ("BMC Dahid", [500, 500]),
   ("BMC Dhad", [500, 500]),
   ("DEFAULT", [500, 500, 500])]

/-- The three-tier fleet lookup of STEP 4: `FLEET_CONFIG.get(real_name)`
(a falsy result — absent key or empty list — falls through), then the
case-insensitive scan `key.upper() == real_name.upper()` in dictionary
order, then `FLEET_CONFIG["DEFAULT"]` (modelled as `[]` where Python would
raise a KeyError on a configuration without `DEFAULT`). -/
def resolveFleet (cfg : List (String × List Int)) (real_name : String) :
    List Int :=
  let f0 := (List.lookup real_name cfg).getD []
  let f1 :=
    if f0.isEmpty then
      ((cfg.find? (fun p => pyUpper p.1 == pyUpper real_name)).map
        Prod.snd).getD []
    else f0
  if f1.isEmpty then (List.lookup "DEFAULT" cfg).getD [] else f1

/-- STEP 4 of `prepare_global_data`: for every depot index `d` and every
capacity in its resolved fleet, append `d` to `starts`, `d` to `ends` and
the capacity to `capacities`. -/
def assignFleet (depot_indices : List Nat) (realNames : Nat → String)
    (cfg : List (String × List Int)) : List Nat × List Nat × List Int :=
  depot_indices.foldl
    (fun acc d =>
      let fleet := resolveFleet cfg (realNames d)
      (acc.1 ++ fleet.map (fun _ => d),
       acc.2.1 ++ fleet.map (fun _ => d),
       acc.2.2 ++ fleet))
    ([], [], [])

theorem assignFleet_aux (realNames : Nat → String)
    (cfg : List (String × List Int)) (dis : List Nat)
    (s e : List Nat) (c : List Int) :
    dis.foldl
      (fun acc d =>
        let fleet := resolveFleet cfg (realNames d)
        (acc.1 ++ fleet.map (fun _ => d),
         acc.2.1 ++ fleet.map (fun _ => d),
         acc.2.2 ++ fleet))
      (s, e, c) =
      (s ++ dis.flatMap
          (fun d => (resolveFleet cfg (realNames d)).map (fun _ => d)),
       e ++ dis.flatMap
          (fun d => (resolveFleet cfg (realNames d)).map (fun _ => d)),
       c ++ dis.flatMap (fun d => resolveFleet cfg (realNames d))) := by
  induction dis generalizing s e c with
  | nil => simp
  | cons d ds ih =>
    rw [List.foldl_cons]
    show (ds.foldl _ (s ++ _, e ++ _, c ++ _)) = _
    rw [ih]
    simp [List.flatMap_cons, List.append_assoc]

/-- Claim C7: for every depot list and fleet configuration,
`num_vehicles (= len(starts)) = len(ends) = len(capacities) = Σ over depots
of the length of the resolved capacity list`, and the arrays are exactly
one vehicle per capacity value with `start = end =` that depot's node
index. -/
theorem C7_fleet_invariant (dis : List Nat) (realNames : Nat → String)
    (cfg : List (String × List Int)) :
    ((assignFleet dis realNames cfg).1).length =
      ((assignFleet dis realNames cfg).2.1).length ∧
    ((assignFleet dis realNames cfg).1).length =
      ((assignFleet dis realNames cfg).2.2).length ∧
    ((assignFleet dis realNames cfg).1).length =
      (dis.map (fun d => (resolveFleet cfg (realNames d)).length)).sum ∧
    (assignFleet dis realNames cfg).1 =
      dis.flatMap
        (fun d => (resolveFleet cfg (realNames d)).map (fun _ => d)) ∧
    (assignFleet dis realNames cfg).2.1 =
      dis.flatMap
        (fun d => (resolveFleet cfg (realNames d)).map (fun _ => d)) ∧
    (assignFleet dis realNames cfg).2.2 =
      dis.flatMap (fun d => resolveFleet cfg (realNames d)) := by
  have h := assignFleet_aux realNames cfg dis [] [] []
  have h1 : (assignFleet dis realNames cfg).1 =
      dis.flatMap
        (fun d => (resolveFleet cfg (realNames d)).map (fun _ => d)) := by
    unfold assignFleet
    rw [h]
    rfl
  have h2 : (assignFleet dis realNames cfg).2.1 =
      dis.flatMap
        (fun d => (resolveFleet cfg (realNames d)).map (fun _ => d)) := by
    unfold assignFleet
    rw [h]
    rfl
  have h3 : (assignFleet dis realNames cfg).2.2 =
      dis.flatMap (fun d => resolveFleet cfg (realNames d)) := by
    unfold assignFleet
    rw [h]
    rfl
  refine ⟨?_, ?_, ?_, h1, h2, h3⟩
  · rw [h1, h2]
  · rw [h1, h3]
    simp [List.length_flatMap, List.length_map, Function.comp_def,
      List.length_replicate]
  · rw [h1]
    simp [List.length_flatMap, List.length_map, Function.comp_def,
      List.length_replicate]

/-! ### `process_and_split` from `src/data_prep/split_by_depot.py` -/

/-- `is_valid_coordinate`; `none` models a NaN (`pd.isna`) value. -/
def is_valid_coordinate (lat lon : Option Rat) : Bool :=
  match lat, lon with
  | some la, some lo =>
    if la = 0 ∨ lo = 0 then false
    else decide (-90 ≤ la ∧ la ≤ 90 ∧ -180 ≤ lo ∧ lo ≤ 180)
  | _, _ => false

/-- One raw row of a dispatch group: latitude, longitude (NaN as `none`)
and the demand after `fillna(0)` and `int(...)`. -/
structure RawRow where
  lat : Option Rat
  lon : Option Rat
  demand : Int

/-- The `((lat, lon), demand)` pairs of the rows passing
`is_valid_coordinate`; the remaining rows are the counted, skipped bad
rows. -/
def validRows (rows : List RawRow) : List ((Rat × Rat) × Int) :=
  rows.filterMap (fun r =>
    match r.lat, r.lon with
    | some la, some lo =>
      if is_valid_coordinate (some la) (some lo) then
        some ((la, lo), r.demand)
      else none
    | _, _ => none)

/-- One step of the Python dict build `unique[loc] = dem`: replace the
value in place when the key is present, append otherwise. -/
def dictInsert (m : List ((Rat × Rat) × Int)) (k : Rat × Rat) (v : Int) :
    List ((Rat × Rat) × Int) :=
  if m.any (fun p => decide (p.1 = k)) then
    m.map (fun p => if p.1 = k then (p.1, v) else p)
  else m ++ [(k, v)]

/-- The duplicate-coordinate collapse
`for loc, dem in zip(locations, demands): unique[loc] = dem`
(insertion-ordered dict, last value wins). -/
def pyDict (rows : List ((Rat × Rat) × Int)) :
    List ((Rat × Rat) × Int) :=
  rows.foldl (fun m r => dictInsert m r.1 r.2) []

/-- Dict lookup `unique[k]`. -/
def lookupD (m : List ((Rat × Rat) × Int)) (k : Rat × Rat) : Option Int :=
  (m.find? (fun p => decide (p.1 = k))).map Prod.snd

/-- `demands[0] = 0` (the call site is guarded by the
`len(locations) == 0` skip, so the list is never empty there). -/
def setDepotDemand : List Int → List Int
  | [] => []
  | _ :: rest => 0 :: rest

/-- The JSON record written per dispatch group. -/
structure DispatchData where
  distance_matrix : Mat
  demands : List Int
  num_vehicles : Nat
  vehicle_capacity : Int
  depot : Nat

/-- The per-group body of `process_and_split`: skip the group when no
valid location remains, collapse duplicate coordinates through the dict,
zero the first demand, build the matrix with
`build_osrm_distance_matrix` (an exception skips the group), and export
with `depot: 0`, `num_vehicles: 3`, `vehicle_capacity: 500`. -/
def process_group (R : RespOracle) (rows : List RawRow) :
    Option DispatchData :=
  if (validRows rows).isEmpty then none
  else
    match build_osrm_distance_matrix R
        (((pyDict (validRows rows)).map Prod.fst).length) MAX_POINTS with
    | .error _ => none
    | .ok M =>
      some { distance_matrix := M
             demands :=
               setDepotDemand ((pyDict (validRows rows)).map Prod.snd)
             num_vehicles := 3
             vehicle_capacity := 500
             depot := 0 }

/-! ### Dict lemmas -/

theorem find?_map_upd (m : List ((Rat × Rat) × Int)) (k : Rat × Rat)
    (v : Int) (k' : Rat × Rat) :
    ((m.map (fun p => if p.1 = k then (p.1, v) else p)).find?
        (fun p => decide (p.1 = k'))).map Prod.snd =
      if k' = k then
        (if m.any (fun p => decide (p.1 = k)) then some v else none)
      else (m.find? (fun p => decide (p.1 = k'))).map Prod.snd := by
  induction m with
  | nil => by_cases hk : k' = k <;> simp [hk]
  | cons p m ih =>
    by_cases hp : p.1 = k <;> by_cases hpk' : p.1 = k'
    · have hk : k' = k := hpk'.symm.trans hp
      rw [if_pos hk,
        if_pos (show (List.any (p :: m) fun q => decide (q.1 = k)) = true by
          simp [hp]),
        List.map_cons, if_pos hp,
        List.find?_cons_of_pos _ (by simp [hpk'])]
      rfl
    · have hk : ¬ k' = k := fun hc => hpk' (hc ▸ hp)
      rw [if_neg hk, List.map_cons, if_pos hp,
        List.find?_cons_of_neg _ (by simp [hpk']),
        List.find?_cons_of_neg _ (by simp [hpk']),
        ih, if_neg hk]
    · have hk : ¬ k' = k := fun hc => hp (hpk'.trans hc)
      rw [if_neg hk, List.map_cons, if_neg hp,
        List.find?_cons_of_pos _ (by simp [hpk']),
        List.find?_cons_of_pos _ (by simp [hpk'])]
    · rw [List.map_cons, if_neg hp,
        List.find?_cons_of_neg _ (by simp [hpk']),
        List.find?_cons_of_neg _ (by simp [hpk']),
        ih]
      by_cases hk : k' = k
      · rw [if_pos hk, if_pos hk]
        simp only [List.any_cons, decide_eq_false hp, Bool.false_or]
      · rw [if_neg hk, if_neg hk]

theorem lookupD_dictInsert (m : List ((Rat × Rat) × Int)) (k : Rat × Rat)
    (v : Int) (k' : Rat × Rat) :
    lookupD (dictInsert m k v) k' =
      if k' = k then some v else lookupD m k' := by
  unfold dictInsert lookupD
  by_cases hany : m.any (fun p => decide (p.1 = k)) = true
  · rw [if_pos hany, find?_map_upd]
    by_cases hk : k' = k <;> simp [hk, hany]
  · rw [if_neg hany, List.find?_append]
    by_cases hk : k' = k
    · have hnone : m.find? (fun p => decide (p.1 = k')) = none := by
        rw [List.find?_eq_none]
        intro p hp
        simp only [decide_eq_true_eq]
        intro hpk
        exact hany (List.any_eq_true.2 ⟨p, hp, by simp [hpk.trans hk]⟩)
      rw [hnone, if_pos hk,
        List.find?_cons_of_pos _ (by simp [hk.symm])]
      rfl
    · have hne : ¬ k = k' := fun hc => hk hc.symm
      rw [List.find?_cons_of_neg _ (by simp [hne]), if_neg hk]
      simp

theorem keys_dictInsert (m : List ((Rat × Rat) × Int)) (k : Rat × Rat)
    (v : Int) :
    (dictInsert m k v).map Prod.fst =
      if m.any (fun p => decide (p.1 = k)) then m.map Prod.fst
      else m.map Prod.fst ++ [k] := by
  unfold dictInsert
  by_cases hany : m.any (fun p => decide (p.1 = k)) = true
  · rw [if_pos hany, if_pos hany, List.map_map]
    refine List.map_congr_left (fun p _ => ?_)
    by_cases hp : p.1 = k <;> simp [hp]
  · rw [if_neg hany, if_neg hany, List.map_append]
    rfl

theorem dictInsert_ne_nil (m : List ((Rat × Rat) × Int)) (k : Rat × Rat)
    (v : Int) : dictInsert m k v ≠ [] := by
  unfold dictInsert
  by_cases hany : m.any (fun p => decide (p.1 = k)) = true
  · rw [if_pos hany]
    cases m with
    | nil => simp at hany
    | cons a as => simp
  · rw [if_neg hany]
    simp

theorem pyDict_foldl_ne_nil (rows : List ((Rat × Rat) × Int))
    (acc : List ((Rat × Rat) × Int)) (h : acc ≠ []) :
    rows.foldl (fun m r => dictInsert m r.1 r.2) acc ≠ [] := by
  induction rows generalizing acc with
  | nil => exact h
  | cons r rs ih =>
    rw [List.foldl_cons]
    exact ih _ (dictInsert_ne_nil _ _ _)

theorem pyDict_ne_nil (rows : List ((Rat × Rat) × Int)) (h : rows ≠ []) :
    pyDict rows ≠ [] := by
  cases rows with
  | nil => exact absurd rfl h
  | cons r rs =>
    unfold pyDict
    rw [List.foldl_cons]
    exact pyDict_foldl_ne_nil rs _ (dictInsert_ne_nil _ _ _)

theorem head_keys_foldl (rows : List ((Rat × Rat) × Int))
    (acc : List ((Rat × Rat) × Int)) (h : acc ≠ []) :
    ((rows.foldl (fun m r => dictInsert m r.1 r.2) acc).map
        Prod.fst).head? = (acc.map Prod.fst).head? := by
  induction rows generalizing acc with
  | nil => rfl
  | cons r rs ih =>
    rw [List.foldl_cons, ih _ (dictInsert_ne_nil _ _ _), keys_dictInsert]
    by_cases hany : acc.any (fun p => decide (p.1 = r.1)) = true
    · rw [if_pos hany]
    · rw [if_neg hany]
      cases acc with
      | nil => exact absurd rfl h
      | cons a as => simp

theorem head_keys_pyDict (rows : List ((Rat × Rat) × Int)) :
    ((pyDict rows).map Prod.fst).head? = (rows.map Prod.fst).head? := by
  cases rows with
  | nil => rfl
  | cons r rs =>
    unfold pyDict
    rw [List.foldl_cons, head_keys_foldl rs _ (dictInsert_ne_nil _ _ _)]
    simp [dictInsert]

theorem mem_keys_dictInsert (m : List ((Rat × Rat) × Int)) (k : Rat × Rat)
    (v : Int) (x : Rat × Rat) :
    x ∈ (dictInsert m k v).map Prod.fst ↔
      x ∈ m.map Prod.fst ∨ x = k := by
  rw [keys_dictInsert]
  by_cases hany : m.any (fun p => decide (p.1 = k)) = true
  · rw [if_pos hany]
    constructor
    · exact Or.inl
    · rintro (hx | rfl)
      · exact hx
      · rcases List.any_eq_true.1 hany with ⟨p, hp, hpk⟩
        simp only [decide_eq_true_eq] at hpk
        exact List.mem_map.2 ⟨p, hp, hpk⟩
  · rw [if_neg hany]
    simp [List.mem_append]

theorem mem_keys_foldl (rows : List ((Rat × Rat) × Int))
    (acc : List ((Rat × Rat) × Int)) (x : Rat × Rat) :
    x ∈ (rows.foldl (fun m r => dictInsert m r.1 r.2) acc).map Prod.fst ↔
      x ∈ acc.map Prod.fst ∨ x ∈ rows.map Prod.fst := by
  induction rows generalizing acc with
  | nil => simp
  | cons r rs ih =>
    rw [List.foldl_cons, ih, mem_keys_dictInsert]
    simp only [List.map_cons, List.mem_cons]
    tauto

theorem mem_keys_pyDict (rows : List ((Rat × Rat) × Int)) (x : Rat × Rat) :
    x ∈ (pyDict rows).map Prod.fst ↔ x ∈ rows.map Prod.fst := by
  unfold pyDict
  rw [mem_keys_foldl]
  simp

theorem nodup_keys_dictInsert (m : List ((Rat × Rat) × Int))
    (k : Rat × Rat) (v : Int) (h : (m.map Prod.fst).Nodup) :
    ((dictInsert m k v).map Prod.fst).Nodup := by
  rw [keys_dictInsert]
  by_cases hany : m.any (fun p => decide (p.1 = k)) = true
  · rw [if_pos hany]
    exact h
  · rw [if_neg hany]
    have hk : k ∉ m.map Prod.fst := by
      intro hmem
      rcases List.mem_map.1 hmem with ⟨p, hp, hpk⟩
      exact hany (List.any_eq_true.2 ⟨p, hp, by simp [hpk]⟩)
    rw [List.nodup_append]
    refine ⟨h, List.nodup_singleton k, fun a ha hb => ?_⟩
    simp only [List.mem_singleton] at hb
    subst hb
    exact hk ha

theorem nodup_keys_foldl (rows : List ((Rat × Rat) × Int))
    (acc : List ((Rat × Rat) × Int)) (h : (acc.map Prod.fst).Nodup) :
    ((rows.foldl (fun m r => dictInsert m r.1 r.2) acc).map
      Prod.fst).Nodup := by
  induction rows generalizing acc with
  | nil => exact h
  | cons r rs ih =>
    rw [List.foldl_cons]
    exact ih _ (nodup_keys_dictInsert _ _ _ h)

theorem nodup_keys_pyDict (rows : List ((Rat × Rat) × Int)) :
    ((pyDict rows).map Prod.fst).Nodup :=
  nodup_keys_foldl rows [] (by simp)

theorem lookupD_foldl (rows : List ((Rat × Rat) × Int))
    (acc : List ((Rat × Rat) × Int)) (k : Rat × Rat) :
    lookupD (rows.foldl (fun m r => dictInsert m r.1 r.2) acc) k =
      ((rows.reverse.find? (fun p => decide (p.1 = k))).map Prod.snd).or
        (lookupD acc k) := by
  induction rows generalizing acc with
  | nil => simp
  | cons r rs ih =>
    rw [List.foldl_cons, ih, List.reverse_cons, List.find?_append,
      lookupD_dictInsert]
    cases hf : rs.reverse.find? (fun p => decide (p.1 = k)) with
    | some p => simp [Option.or]
    | none =>
      simp only [Option.map_none', Option.none_or]
      by_cases hk : k = r.1
      · rw [if_pos hk,
          List.find?_cons_of_pos _ (by simp [hk.symm])]
        rfl
      · rw [if_neg hk,
          List.find?_cons_of_neg _
            (by simp only [decide_eq_true_eq]; exact fun hc => hk hc.symm)]
        rfl

theorem lookupD_pyDict (rows : List ((Rat × Rat) × Int)) (k : Rat × Rat) :
    lookupD (pyDict rows) k =
      (rows.reverse.find? (fun p => decide (p.1 = k))).map Prod.snd := by
  unfold pyDict
  rw [lookupD_foldl]
  simp [lookupD]

theorem process_group_some {R : RespOracle} {rows : List RawRow}
    {out : DispatchData} (h : process_group R rows = some out) :
    validRows rows ≠ [] ∧
    out.depot = 0 ∧
    out.demands =
      setDepotDemand ((pyDict (validRows rows)).map Prod.snd) := by
  unfold process_group at h
  by_cases hv : (validRows rows).isEmpty = true
  · rw [if_pos hv] at h
    exact absurd h (by simp)
  · rw [if_neg hv] at h
    have hout : out.depot = 0 ∧ out.demands =
        setDepotDemand ((pyDict (validRows rows)).map Prod.snd) := by
      cases hb : build_osrm_distance_matrix R
          (((pyDict (validRows rows)).map Prod.fst).length) MAX_POINTS with
      | error e =>
        rw [hb] at h
        exact absurd h (by simp)
      | ok M =>
        rw [hb] at h
        simp only [Option.some.injEq] at h
        rw [← h]
        exact ⟨rfl, rfl⟩
    exact ⟨fun hnil => hv (List.isEmpty_iff.2 hnil), hout.1, hout.2⟩

/-- Claim C10: for a dispatch group with at least one valid location (one
for which `process_and_split` exports a record): rows with identical
`(lat, lon)` collapse to a single node — the surviving coordinates are
exactly the valid rows' coordinates, without duplicates, in
first-occurrence order — whose demand is the last such row's demand
(earlier duplicates are discarded, not summed); the demand of the first
surviving location is then overwritten to 0, and that node is exported as
the depot, index 0, whatever demand its source row carried. -/
theorem C10_dedup_last_wins (R : RespOracle) (rows : List RawRow)
    (out : DispatchData) (h : process_group R rows = some out) :
    out.depot = 0 ∧
    out.demands =
      setDepotDemand ((pyDict (validRows rows)).map Prod.snd) ∧
    out.demands.head? = some 0 ∧
    out.demands.tail = ((pyDict (validRows rows)).map Prod.snd).tail ∧
    ((pyDict (validRows rows)).map Prod.fst).Nodup ∧
    (∀ x, x ∈ (pyDict (validRows rows)).map Prod.fst ↔
      x ∈ (validRows rows).map Prod.fst) ∧
    ((pyDict (validRows rows)).map Prod.fst).head? =
      ((validRows rows).map Prod.fst).head? ∧
    (∀ x, lookupD (pyDict (validRows rows)) x =
      ((validRows rows).reverse.find?
        (fun p => decide (p.1 = x))).map Prod.snd) := by
  obtain ⟨hvne, hd, hdem⟩ := process_group_some h
  have hpne : pyDict (validRows rows) ≠ [] := pyDict_ne_nil _ hvne
  refine ⟨hd, hdem, ?_, ?_, nodup_keys_pyDict _,
    fun x => mem_keys_pyDict _ x, head_keys_pyDict _,
    fun x => lookupD_pyDict _ x⟩
  · rw [hdem]
    cases hu : pyDict (validRows rows) with
    | nil => exact absurd hu hpne
    | cons p ps => rfl
  · rw [hdem]
    cases hu : pyDict (validRows rows) with
    | nil => exact absurd hu hpne
    | cons p ps => rfl

/-- A concrete dispatch group: two rows share the coordinate `(1, 2)` with
demands 5 and then 9, one row has coordinate `(3, 4)`, one row is invalid
(missing latitude). -/
def wRows : List RawRow :=
  [⟨some 1, some 2, 5⟩, ⟨some 3, some 4, 6⟩, ⟨some 1, some 2, 9⟩,
   ⟨none, some 4, 11⟩]

/-- An always-successful response oracle with a constant distance table. -/
def okR : RespOracle := fun _ _ => some (fun _ _ => some 4)

def wOut : DispatchData :=
  (process_group okR wRows).getD ⟨fun _ _ => 0, [], 0, 0, 0⟩

theorem C10_dedup_last_wins_witness :
    wOut.depot = 0 ∧
    wOut.demands.head? = some 0 ∧
    ((pyDict (validRows wRows)).map Prod.fst).Nodup ∧
    ((1, 2) ∈ (pyDict (validRows wRows)).map Prod.fst ↔
      (1, 2) ∈ (validRows wRows).map Prod.fst) ∧
    ((pyDict (validRows wRows)).map Prod.fst).head? =
      ((validRows wRows).map Prod.fst).head? ∧
    lookupD (pyDict (validRows wRows)) (1, 2) =
      ((validRows wRows).reverse.find?
        (fun p => decide (p.1 = (1, 2)))).map Prod.snd :=
  ⟨(C10_dedup_last_wins okR wRows wOut (by rfl)).1,
   (C10_dedup_last_wins okR wRows wOut (by rfl)).2.2.1,
   (C10_dedup_last_wins okR wRows wOut (by rfl)).2.2.2.2.1,
   (C10_dedup_last_wins okR wRows wOut (by rfl)).2.2.2.2.2.1 (1, 2),
   (C10_dedup_last_wins okR wRows wOut (by rfl)).2.2.2.2.2.2.1,
   (C10_dedup_last_wins okR wRows wOut (by rfl)).2.2.2.2.2.2.2 (1, 2)⟩
